import Mathlib

/-!
Verification of `gpt_2/interactive_conditional_samples.py`.

A shallow embedding of the interactive sampling driver `interact_model`.
External collaborators (the token codec, the model's default hyperparameters,
the contents of `hparams.json`, the TensorFlow sampling computation and its
random state evolution, and the OS entropy consumed when no seed is given)
are bundled in an `Ext` record and quantified over; the driver itself is
translated line by line into a pure function producing the trace of
observable events (resource loads, RNG seeding, graph construction,
checkpoint restore, prompts, generation calls and printed samples).
-/

namespace GPT2

/-- External collaborators of the driver, quantified over in the theorems.
`gen` models one `sess.run(output, feed_dict={context: …})` call: it receives
the current random state and the fed batch of token sequences and returns the
batch of full output sequences (prompt followed by continuation, as
`sample.sample_sequence` produces).  `rngNext` models the evolution of the
random state across successive `sess.run` calls. -/
structure Ext where
  encode : String → List Nat
  decode : List Nat → String
  defaultHparams : List (String × Int)
  hparamsJson : List (String × Int)
  gen : Int → List (List Nat) → List (List Nat)
  rngNext : Int → Int

/-- The configuration surface of `interact_model` (its keyword parameters).
`temperature`, `top_k` and `top_p` are opaque pass-through values. -/
structure Config where
  model_name : String := "124M"
  seed : Option Int := none
  nsamples : Nat := 1
  batch_size : Option Nat := some 1
  length : Option Int := none
  temperature : Int := 1
  top_k : Nat := 0
  top_p : Int := 1
  models_dir : String := "models"

/-- Observable events of one run of the driver, in program order. -/
inductive Event where
  | assertFailure
  | loadEncoder
  | loadHparams
  | raiseValueError (n_ctx : Int)
  | createPlaceholder (batch_size : Nat)
  | seedNumpy (seed : Option Int)
  | seedTF (seed : Option Int)
  | buildSampler (length : Int) (batch_size : Nat)
  | restoreCheckpoint
  | promptRead (line : String)
  | emptyNotice
  | encodeEvent (toks : List Nat)
  | genCall (input : List (List Nat))
  | printSample (ordinal : Nat) (text : String)
  | printSep
  deriving DecidableEq, Repr

/-- Model of `setattr(hparams, k, v)`: overwrite the attribute `k` if
present, otherwise add it as a new attribute. -/
def setattr (h : List (String × Int)) (k : String) (v : Int) :
    List (String × Int) :=
  if h.any (fun p => p.1 = k) then
    h.map (fun p => if p.1 = k then (k, v) else p)
  else h ++ [(k, v)]

/-- Model of `getattr(hparams, k, d)`: the attribute `k` if present, else the
default `d`. -/
def getattrD (h : List (String × Int)) (k : String) (d : Int) : Int :=
  ((h.find? (fun p => p.1 = k)).map Prod.snd).getD d

/-- Model of `for k, v in hparams_dict.items(): setattr(hparams, k, v)`:
overlay every metadata key onto the default hyperparameter structure. -/
def overlayHparams (dflt json : List (String × Int)) : List (String × Int) :=
  json.foldl (fun h kv => setattr h kv.1 kv.2) dflt

/-- Model of `n_ctx = getattr(hparams, 'n_ctx', 1024)` after the overlay. -/
def nCtxOf (ext : Ext) : Int :=
  getattrD (overlayHparams ext.defaultHparams ext.hparamsJson) "n_ctx" 1024

/-- Model of `if length is None: length = n_ctx // 2
    elif length > n_ctx: raise ValueError(f"… window size: {n_ctx}")`.
The error value carries the concrete window size named in the message. -/
def resolveLength (length : Option Int) (n_ctx : Int) : Except Int Int :=
  match length with
  | none => Except.ok (n_ctx.fdiv 2)
  | some l => if l > n_ctx then Except.error n_ctx else Except.ok l

/-- Model of `np.random.seed(seed); tf1.set_random_seed(seed)`: with a seed
the random state is that seed; with `None` it is fresh OS entropy. -/
def initRng (seed : Option Int) (entropy : Int) : Int :=
  match seed with
  | some s => s
  | none => entropy

/-- One iteration of `for _ in range(nsamples // batch_size)`: feed
`[context_tokens for _ in range(batch_size)]`, slice off the first
`len(context_tokens)` tokens of every row, then print the `batch_size`
decoded rows, incrementing `generated` before each print. -/
def runRound (ext : Ext) (bs : Nat) (toks : List Nat) (rng : Int)
    (generated : Nat) : List Event :=
  let raw := ext.gen rng (List.replicate bs toks)
  Event.genCall (List.replicate bs toks) ::
    (List.range bs).map (fun i =>
      Event.printSample (generated + i + 1)
        (ext.decode ((raw.getD i []).drop toks.length)))

/-- The `for _ in range(nsamples // batch_size)` loop: `n` rounds, threading
the random state and the `generated` counter. -/
def runRounds (ext : Ext) (bs : Nat) (toks : List Nat) :
    Int → Nat → Nat → List Event × Int
  | rng, _, 0 => ([], rng)
  | rng, generated, n + 1 =>
    let evs := runRound ext bs toks rng generated
    let rest := runRounds ext bs toks (ext.rngNext rng) (generated + bs) n
    (evs ++ rest.1, rest.2)

/-- Processing of one non-empty prompt line: encode, run
`nsamples // batch_size` rounds starting from `generated = 0`, then print the
closing `"=" * 80` separator. -/
def promptStep (ext : Ext) (ns bs : Nat) (rng : Int) (line : String) :
    List Event × Int :=
  let toks := ext.encode line
  let r := runRounds ext bs toks rng 0 (ns / bs)
  (Event.encodeEvent toks :: r.1 ++ [Event.printSep], r.2)

/-- The `while True` interactive loop, driven by the finite list of stdin
lines (the real loop blocks forever; input exhaustion ends the trace).
An empty line prints the notice and re-prompts without encoding. -/
def loop (ext : Ext) (ns bs : Nat) : Int → List String → List Event
  | _, [] => []
  | rng, line :: rest =>
    if line = "" then
      Event.promptRead line :: Event.emptyNotice :: loop ext ns bs rng rest
    else
      let r := promptStep ext ns bs rng line
      Event.promptRead line :: r.1 ++ loop ext ns bs r.2 rest

/-- The whole of `interact_model`, as the trace of its observable events.
`entropy` is the OS randomness consumed by `np.random.seed(None)` /
`set_random_seed(None)` when no seed is supplied. -/
def interact_model (ext : Ext) (entropy : Int) (cfg : Config)
    (lines : List String) : List Event :=
  let bs := cfg.batch_size.getD 1
  if cfg.nsamples % bs = 0 then
    let n_ctx := nCtxOf ext
    match resolveLength cfg.length n_ctx with
    | Except.error n =>
      [Event.loadEncoder, Event.loadHparams, Event.raiseValueError n]
    | Except.ok len =>
      [Event.loadEncoder, Event.loadHparams, Event.createPlaceholder bs,
       Event.seedNumpy cfg.seed, Event.seedTF cfg.seed,
       Event.buildSampler len bs, Event.restoreCheckpoint]
        ++ loop ext cfg.nsamples bs (initRng cfg.seed entropy) lines
  else [Event.assertFailure]

/-- The ordinals of the displayed samples in a trace, in print order. -/
def sampleOrdinals (evs : List Event) : List Nat :=
  evs.filterMap (fun e =>
    match e with
    | Event.printSample n _ => some n
    | _ => none)

/-- The number of generation calls (rounds) in a trace. -/
def genCallCount (evs : List Event) : Nat :=
  (evs.filter (fun e =>
    match e with
    | Event.genCall _ => true
    | _ => false)).length

/-- Whether a trace contains any event that loads or builds a model resource
(encoder, hyperparameters, placeholder, sampling graph, checkpoint). -/
def hasResourceLoad (evs : List Event) : Bool :=
  evs.any (fun e =>
    match e with
    | Event.loadEncoder | Event.loadHparams | Event.createPlaceholder _
    | Event.buildSampler _ _ | Event.restoreCheckpoint => true
    | _ => false)

/-- Whether a trace contains any session-construction event (placeholder,
sampling graph, checkpoint restore). -/
def hasSessionBuild (evs : List Event) : Bool :=
  evs.any (fun e =>
    match e with
    | Event.createPlaceholder _ | Event.buildSampler _ _
    | Event.restoreCheckpoint => true
    | _ => false)

/-- The number of encode operations in a trace. -/
def encodeCount (evs : List Event) : Nat :=
  (evs.filter (fun e =>
    match e with
    | Event.encodeEvent _ => true
    | _ => false)).length

/-- A concrete instantiation of the external collaborators, used to exercise
the theorems on closed inputs.  The generation oracle extends every fed
context by two fresh tokens, as `sample.sample_sequence` extends the prompt. -/
def extA : Ext where
  encode := fun s => s.data.map Char.toNat
  decode := fun ts => String.mk (ts.map Char.ofNat)
  defaultHparams := [("n_ctx", 1024), ("n_head", 12)]
  hparamsJson := [("n_ctx", 8), ("n_layer", 2)]
  gen := fun rng input => input.map (fun ctx => ctx ++ [rng.natAbs % 7, 3])
  rngNext := fun r => r + 1

/-- An absent attribute reads as the supplied default. -/
theorem getattrD_absent {h : List (String × Int)} {k : String} (d : Int)
    (hk : k ∉ h.map Prod.fst) : getattrD h k d = d := by
  have hfind : h.find? (fun p => p.1 = k) = none := by
    rw [List.find?_eq_none]
    intro x hx hpx
    exact hk (List.mem_map.mpr ⟨x, hx, by simpa using hpx⟩)
  simp [getattrD, hfind]

/-- In the overwrite branch of `setattr`, the key is found with the new
value. -/
theorem find?_map_overwrite (k : String) (v : Int) :
    ∀ h : List (String × Int), h.any (fun p => p.1 = k) = true →
      (h.map (fun p => if p.1 = k then (k, v) else p)).find?
        (fun p => p.1 = k) = some (k, v)
  | [], hany => by simp at hany
  | q :: t, hany => by
    by_cases hq : q.1 = k
    · simp only [List.map_cons, if_pos hq]
      exact List.find?_cons_of_pos _ (by simp)
    · have ht : t.any (fun p => p.1 = k) = true := by
        simpa [List.any_cons, hq] using hany
      simp only [List.map_cons, if_neg hq]
      rw [List.find?_cons_of_neg _ (by simp [hq])]
      exact find?_map_overwrite k v t ht

/-- After `setattr h k v`, looking up `k` finds `(k, v)`. -/
theorem find?_setattr_self (h : List (String × Int)) (k : String) (v : Int) :
    (setattr h k v).find? (fun p => p.1 = k) = some (k, v) := by
  unfold setattr
  by_cases hc : h.any (fun p => p.1 = k) = true
  · rw [if_pos hc]
    exact find?_map_overwrite k v h hc
  · rw [if_neg hc, List.find?_append]
    have h1 : h.find? (fun p => p.1 = k) = none := by
      rw [List.find?_eq_none]
      intro x hx hpx
      exact hc (List.any_eq_true.mpr ⟨x, hx, hpx⟩)
    rw [h1]
    simp

/-- The overwritten attribute reads back the new value. -/
theorem getattrD_setattr_self (h : List (String × Int)) (k : String)
    (v d : Int) : getattrD (setattr h k v) k d = v := by
  simp [getattrD, find?_setattr_self h k v]

/-- A `setattr` on one key does not disturb lookups of another key. -/
theorem find?_setattr_other (h : List (String × Int)) (k k' : String)
    (v : Int) (hne : k' ≠ k) :
    (setattr h k v).find? (fun p => p.1 = k') =
      h.find? (fun p => p.1 = k') := by
  unfold setattr
  by_cases hc : h.any (fun p => p.1 = k) = true
  · rw [if_pos hc, List.find?_map]
    have hpred : ((fun p : String × Int => decide (p.1 = k')) ∘
        (fun p => if p.1 = k then (k, v) else p)) =
        fun p : String × Int => decide (p.1 = k') := by
      funext q
      by_cases hq : q.1 = k
      · simp [hq]
      · simp [hq]
    rw [hpred]
    cases hfx : h.find? (fun p => p.1 = k') with
    | none => simp
    | some x =>
      have hx : x.1 = k' := by simpa using List.find?_some hfx
      have hxk : ¬ x.1 = k := by rw [hx]; exact hne
      simp [if_neg hxk]
  · rw [if_neg hc, List.find?_append]
    have h2 : List.find? (fun p : String × Int => p.1 = k') [(k, v)] = none := by
      simp [List.find?_cons, hne.symm]
    rw [h2]
    cases h.find? (fun p : String × Int => p.1 = k') <;> simp

/-- Reading another key after `setattr` is unchanged. -/
theorem getattrD_setattr_other (h : List (String × Int)) (k k' : String)
    (v d : Int) (hne : k' ≠ k) :
    getattrD (setattr h k v) k' d = getattrD h k' d := by
  simp [getattrD, find?_setattr_other h k k' v hne]

/-- After `setattr h k v`, the key `k` is present. -/
theorem mem_keys_setattr_self (h : List (String × Int)) (k : String)
    (v : Int) : k ∈ (setattr h k v).map Prod.fst := by
  unfold setattr
  by_cases hc : h.any (fun p => p.1 = k) = true
  · rw [if_pos hc]
    obtain ⟨x, hx, hpx⟩ := List.any_eq_true.mp hc
    have hxk : x.1 = k := by simpa using hpx
    exact List.mem_map.mpr ⟨(k, v), List.mem_map.mpr ⟨x, hx, by simp [hxk]⟩, rfl⟩
  · rw [if_neg hc]
    simp

/-- `setattr` never removes a key. -/
theorem mem_keys_setattr_of_mem (h : List (String × Int)) (k k' : String)
    (v : Int) (hk' : k' ∈ h.map Prod.fst) :
    k' ∈ (setattr h k v).map Prod.fst := by
  by_cases hkk : k' = k
  · subst hkk
    exact mem_keys_setattr_self h k' v
  · unfold setattr
    by_cases hc : h.any (fun p => p.1 = k) = true
    · rw [if_pos hc]
      obtain ⟨x, hx, hxk⟩ := List.mem_map.mp hk'
      have hxne : ¬ x.1 = k := by rw [hxk]; exact hkk
      exact List.mem_map.mpr
        ⟨x, List.mem_map.mpr ⟨x, hx, by simp [if_neg hxne]⟩, hxk⟩
    · rw [if_neg hc]
      simp only [List.map_append, List.mem_append]
      exact Or.inl hk'

/-- A key absent from the metadata reads after the overlay exactly as it did
on the default structure. -/
theorem getattrD_overlay_not_mem (j : List (String × Int)) :
    ∀ (d : List (String × Int)) (k : String) (dflt : Int),
      k ∉ j.map Prod.fst →
      getattrD (overlayHparams d j) k dflt = getattrD d k dflt := by
  induction j with
  | nil => intro d k dflt _; rfl
  | cons q t ih =>
    intro d k dflt hk
    simp only [List.map_cons, List.mem_cons, not_or] at hk
    have step : overlayHparams d (q :: t) =
        overlayHparams (setattr d q.1 q.2) t := rfl
    rw [step, ih _ k dflt hk.2]
    exact getattrD_setattr_other d q.1 k q.2 dflt hk.1

/-- A key present in duplicate-free metadata reads its metadata value after
the overlay, whatever the default structure held. -/
theorem getattrD_overlay_mem (j : List (String × Int)) :
    ∀ (d : List (String × Int)) (k : String) (v dflt : Int),
      (j.map Prod.fst).Nodup → (k, v) ∈ j →
      getattrD (overlayHparams d j) k dflt = v := by
  induction j with
  | nil => intro _ _ _ _ _ hmem; cases hmem
  | cons q t ih =>
    intro d k v dflt hnd hmem
    simp only [List.map_cons, List.nodup_cons] at hnd
    have step : overlayHparams d (q :: t) =
        overlayHparams (setattr d q.1 q.2) t := rfl
    rcases List.mem_cons.mp hmem with heq | hmem'
    · obtain rfl := heq
      rw [step, getattrD_overlay_not_mem t _ k dflt (by simpa using hnd.1)]
      exact getattrD_setattr_self d k v dflt
    · exact step ▸ ih (setattr d q.1 q.2) k v dflt hnd.2 hmem'

/-- Keys of the base structure survive the whole overlay. -/
theorem mem_keys_overlay_of_base (j : List (String × Int)) :
    ∀ (d : List (String × Int)) (k : String), k ∈ d.map Prod.fst →
      k ∈ (overlayHparams d j).map Prod.fst := by
  induction j with
  | nil => intro d k hk; exact hk
  | cons q t ih =>
    intro d k hk
    exact ih (setattr d q.1 q.2) k (mem_keys_setattr_of_mem d q.1 k q.2 hk)

/-- Every metadata key is present after the overlay. -/
theorem mem_keys_overlay (j : List (String × Int)) :
    ∀ (d : List (String × Int)) (k : String), k ∈ j.map Prod.fst →
      k ∈ (overlayHparams d j).map Prod.fst := by
  induction j with
  | nil => intro _ _ hk; simp at hk
  | cons q t ih =>
    intro d k hk
    simp only [List.map_cons, List.mem_cons] at hk
    rcases hk with heq | hmem
    · subst heq
      exact mem_keys_overlay_of_base t (setattr d q.1 q.2) q.1
        (mem_keys_setattr_self d q.1 q.2)
    · exact ih (setattr d q.1 q.2) k hmem

/-- Sample ordinals distribute over trace concatenation. -/
theorem sampleOrdinals_append (a b : List Event) :
    sampleOrdinals (a ++ b) = sampleOrdinals a ++ sampleOrdinals b := by
  simp [sampleOrdinals]

/-- Generation-call counts add over trace concatenation. -/
theorem genCallCount_append (a b : List Event) :
    genCallCount (a ++ b) = genCallCount a + genCallCount b := by
  simp [genCallCount]

/-- One round prints exactly the `batch_size` consecutive ordinals following
the running `generated` counter. -/
theorem sampleOrdinals_runRound (ext : Ext) (bs : Nat) (toks : List Nat)
    (rng : Int) (g : Nat) :
    sampleOrdinals (runRound ext bs toks rng g) = List.range' (g + 1) bs := by
  have h1 : (fun i => g + i + 1) = (fun i => (g + 1) + i) := by
    funext i
    omega
  simp only [runRound, sampleOrdinals, List.filterMap_cons]
  rw [List.filterMap_map]
  have h2 : ((fun e : Event =>
      match e with
      | Event.printSample n _ => some n
      | _ => none) ∘ (fun i =>
        Event.printSample (g + i + 1)
          (ext.decode (((ext.gen rng (List.replicate bs toks)).getD i []).drop
            toks.length)))) = fun i => some (g + i + 1) := rfl
  rw [h2]
  rw [show (fun i => some (g + i + 1)) = some ∘ (fun i => g + i + 1) from rfl]
  rw [List.filterMap_eq_map, h1, List.range'_eq_map_range]

/-- One round performs exactly one generation call. -/
theorem genCallCount_runRound (ext : Ext) (bs : Nat) (toks : List Nat)
    (rng : Int) (g : Nat) :
    genCallCount (runRound ext bs toks rng g) = 1 := by
  simp [runRound, genCallCount, List.filter_map, Function.comp]

/-- Every event of one round is the generation call on the replicated prompt
or a printed sample. -/
theorem mem_runRound (ext : Ext) (bs : Nat) (toks : List Nat) (rng : Int)
    (g : Nat) (e : Event) (he : e ∈ runRound ext bs toks rng g) :
    e = Event.genCall (List.replicate bs toks) ∨
      ∃ n s, e = Event.printSample n s := by
  simp only [runRound, List.mem_cons, List.mem_map] at he
  rcases he with h | ⟨i, _, rfl⟩
  · exact Or.inl h
  · exact Or.inr ⟨_, _, rfl⟩

/-- The rounds loop prints exactly `n * batch_size` consecutive ordinals. -/
theorem sampleOrdinals_runRounds (ext : Ext) (bs : Nat) (toks : List Nat) :
    ∀ (n : Nat) (rng : Int) (g : Nat),
      sampleOrdinals (runRounds ext bs toks rng g n).1 =
        List.range' (g + 1) (n * bs)
  | 0, rng, g => by simp [runRounds, sampleOrdinals]
  | n + 1, rng, g => by
    simp only [runRounds]
    rw [sampleOrdinals_append, sampleOrdinals_runRound,
      sampleOrdinals_runRounds ext bs toks n]
    have h1 : g + bs + 1 = (g + 1) + 1 * bs := by omega
    rw [h1, List.range'_append]
    have h2 : n * bs + bs = (n + 1) * bs := by ring
    rw [h2]

/-- The rounds loop performs exactly `n` generation calls. -/
theorem genCallCount_runRounds (ext : Ext) (bs : Nat) (toks : List Nat) :
    ∀ (n : Nat) (rng : Int) (g : Nat),
      genCallCount (runRounds ext bs toks rng g n).1 = n
  | 0, _, _ => by simp [runRounds, genCallCount]
  | n + 1, rng, g => by
    simp only [runRounds]
    rw [genCallCount_append, genCallCount_runRound,
      genCallCount_runRounds ext bs toks n]
    omega

/-- Every event of the rounds loop is a generation call on the replicated
prompt or a printed sample. -/
theorem mem_runRounds (ext : Ext) (bs : Nat) (toks : List Nat) :
    ∀ (n : Nat) (rng : Int) (g : Nat) (e : Event),
      e ∈ (runRounds ext bs toks rng g n).1 →
      e = Event.genCall (List.replicate bs toks) ∨
        ∃ m s, e = Event.printSample m s
  | 0, _, _, e, he => by simp [runRounds] at he
  | n + 1, rng, g, e, he => by
    simp only [runRounds, List.mem_append] at he
    rcases he with h | h
    · exact mem_runRound ext bs toks rng g e h
    · exact mem_runRounds ext bs toks n (ext.rngNext rng) (g + bs) e h

/-- Within one prompt the printed ordinals are `1, 2, …` up to the number of
rounds times the batch size. -/
theorem sampleOrdinals_promptStep (ext : Ext) (ns bs : Nat) (rng : Int)
    (line : String) :
    sampleOrdinals (promptStep ext ns bs rng line).1 =
      List.range' 1 (ns / bs * bs) := by
  have h := sampleOrdinals_runRounds ext bs (ext.encode line) (ns / bs) rng 0
  calc sampleOrdinals (promptStep ext ns bs rng line).1
      = sampleOrdinals ((runRounds ext bs (ext.encode line) rng 0 (ns / bs)).1
          ++ [Event.printSep]) := rfl
    _ = sampleOrdinals (runRounds ext bs (ext.encode line) rng 0 (ns / bs)).1
          ++ sampleOrdinals [Event.printSep] := sampleOrdinals_append _ _
    _ = List.range' (0 + 1) (ns / bs * bs) ++ [] := by rw [h]; rfl
    _ = List.range' 1 (ns / bs * bs) := by simp

/-- One prompt performs exactly `ns / bs` generation calls. -/
theorem genCallCount_promptStep (ext : Ext) (ns bs : Nat) (rng : Int)
    (line : String) :
    genCallCount (promptStep ext ns bs rng line).1 = ns / bs := by
  have h := genCallCount_runRounds ext bs (ext.encode line) (ns / bs) rng 0
  calc genCallCount (promptStep ext ns bs rng line).1
      = genCallCount ((runRounds ext bs (ext.encode line) rng 0 (ns / bs)).1
          ++ [Event.printSep]) := rfl
    _ = genCallCount (runRounds ext bs (ext.encode line) rng 0 (ns / bs)).1
          + genCallCount [Event.printSep] := genCallCount_append _ _
    _ = ns / bs := by rw [h]; simp [genCallCount]

/-- A prompt's trace never contains session-construction events. -/
theorem hasSessionBuild_promptStep (ext : Ext) (ns bs : Nat) (rng : Int)
    (line : String) :
    hasSessionBuild (promptStep ext ns bs rng line).1 = false := by
  unfold hasSessionBuild
  rw [List.any_eq_false]
  intro e he
  have he' : e = Event.encodeEvent (ext.encode line) ∨
      e ∈ (runRounds ext bs (ext.encode line) rng 0 (ns / bs)).1 ∨
      e = Event.printSep := by
    simpa [promptStep, List.mem_cons, List.mem_append] using he
  rcases he' with rfl | he' | rfl
  · simp
  · rcases mem_runRounds ext bs (ext.encode line) (ns / bs) rng 0 e he' with
      rfl | ⟨m, s, rfl⟩ <;> simp
  · simp

/-- Every generation call of a prompt's trace feeds the prompt's encoding,
replicated across the whole batch. -/
theorem genCall_input_promptStep (ext : Ext) (ns bs : Nat) (rng : Int)
    (line : String) (inp : List (List Nat))
    (h : Event.genCall inp ∈ (promptStep ext ns bs rng line).1) :
    inp = List.replicate bs (ext.encode line) := by
  have h' : Event.genCall inp ∈
      (runRounds ext bs (ext.encode line) rng 0 (ns / bs)).1 := by
    simpa [promptStep, List.mem_cons, List.mem_append] using h
  rcases mem_runRounds ext bs (ext.encode line) (ns / bs) rng 0 _ h' with
    heq | ⟨m, s, heq⟩
  · injection heq
  · exact Event.noConfusion heq

/-- Reading an empty line prints the notice and re-prompts, with the loop
state untouched. -/
theorem loop_cons_empty (ext : Ext) (ns bs : Nat) (rng : Int)
    (rest : List String) :
    loop ext ns bs rng ("" :: rest) =
      Event.promptRead "" :: Event.emptyNotice :: loop ext ns bs rng rest := by
  simp [loop]

/-- Reading a non-empty line processes the prompt and continues with the
updated random state. -/
theorem loop_cons_ne (ext : Ext) (ns bs : Nat) (rng : Int) (line : String)
    (rest : List String) (h : line ≠ "") :
    loop ext ns bs rng (line :: rest) =
      Event.promptRead line :: (promptStep ext ns bs rng line).1
        ++ loop ext ns bs (promptStep ext ns bs rng line).2 rest := by
  simp [loop, h]

/-- The interactive loop never emits session-construction events. -/
theorem hasSessionBuild_loop (ext : Ext) (ns bs : Nat) :
    ∀ (lines : List String) (rng : Int),
      hasSessionBuild (loop ext ns bs rng lines) = false
  | [], _ => rfl
  | line :: rest, rng => by
    by_cases h : line = ""
    · subst h
      rw [loop_cons_empty]
      have h2 := hasSessionBuild_loop ext ns bs rest rng
      simpa [hasSessionBuild, List.any_cons] using h2
    · rw [loop_cons_ne ext ns bs rng line rest h]
      unfold hasSessionBuild
      rw [List.any_eq_false]
      intro e he
      rcases List.mem_cons.mp he with rfl | he'
      · simp
      rcases List.mem_append.mp he' with hp | hl
      · have h1 := hasSessionBuild_promptStep ext ns bs rng line
        unfold hasSessionBuild at h1
        rw [List.any_eq_false] at h1
        exact h1 e hp
      · have h2 := hasSessionBuild_loop ext ns bs rest
          (promptStep ext ns bs rng line).2
        unfold hasSessionBuild at h2
        rw [List.any_eq_false] at h2
        exact h2 e hl

/-- A configuration that passes both startup checks produces the full
startup trace followed by the interactive loop. -/
theorem interact_model_ok (ext : Ext) (entropy : Int) (cfg : Config)
    (lines : List String) (len : Int)
    (hmod : cfg.nsamples % cfg.batch_size.getD 1 = 0)
    (hlen : resolveLength cfg.length (nCtxOf ext) = Except.ok len) :
    interact_model ext entropy cfg lines =
      [Event.loadEncoder, Event.loadHparams,
       Event.createPlaceholder (cfg.batch_size.getD 1),
       Event.seedNumpy cfg.seed, Event.seedTF cfg.seed,
       Event.buildSampler len (cfg.batch_size.getD 1),
       Event.restoreCheckpoint]
        ++ loop ext cfg.nsamples (cfg.batch_size.getD 1)
            (initRng cfg.seed entropy) lines := by
  simp [interact_model, hmod, hlen]

/-- A ratio violation stops the run at the assert, with an empty trace
besides the failure. -/
theorem interact_model_assert (ext : Ext) (entropy : Int) (cfg : Config)
    (lines : List String)
    (hmod : ¬ cfg.nsamples % cfg.batch_size.getD 1 = 0) :
    interact_model ext entropy cfg lines = [Event.assertFailure] := by
  simp [interact_model, hmod]

/-- An oversized `length` stops the run at the `ValueError`, after the
encoder and hyperparameter loads. -/
theorem interact_model_lenerr (ext : Ext) (entropy : Int) (cfg : Config)
    (lines : List String) (n : Int)
    (hmod : cfg.nsamples % cfg.batch_size.getD 1 = 0)
    (hlen : resolveLength cfg.length (nCtxOf ext) = Except.error n) :
    interact_model ext entropy cfg lines =
      [Event.loadEncoder, Event.loadHparams, Event.raiseValueError n] := by
  simp [interact_model, hmod, hlen]

/-- C1: in a configuration that passes the divisibility check, an unset
`length` resolves to `n_ctx // 2` and the session is built with that value,
while a `length` exceeding the context window aborts startup with the
`ValueError` carrying the concrete window size and no session resource is
ever constructed. -/
theorem length_resolution_spec (ext : Ext) (entropy : Int) (cfg : Config)
    (lines : List String)
    (hmod : cfg.nsamples % cfg.batch_size.getD 1 = 0) :
    (cfg.length = none →
      interact_model ext entropy cfg lines =
        [Event.loadEncoder, Event.loadHparams,
         Event.createPlaceholder (cfg.batch_size.getD 1),
         Event.seedNumpy cfg.seed, Event.seedTF cfg.seed,
         Event.buildSampler ((nCtxOf ext).fdiv 2) (cfg.batch_size.getD 1),
         Event.restoreCheckpoint]
          ++ loop ext cfg.nsamples (cfg.batch_size.getD 1)
              (initRng cfg.seed entropy) lines) ∧
    (∀ l : Int, cfg.length = some l → l > nCtxOf ext →
      interact_model ext entropy cfg lines =
        [Event.loadEncoder, Event.loadHparams,
         Event.raiseValueError (nCtxOf ext)] ∧
      hasSessionBuild (interact_model ext entropy cfg lines) = false) := by
  constructor
  · intro hn
    exact interact_model_ok ext entropy cfg lines _ hmod
      (by simp [resolveLength, hn])
  · intro l hl hgt
    have herr : resolveLength cfg.length (nCtxOf ext) =
        Except.error (nCtxOf ext) := by
      simp [resolveLength, hl, hgt]
    have htr := interact_model_lenerr ext entropy cfg lines _ hmod herr
    refine ⟨htr, ?_⟩
    rw [htr]
    simp [hasSessionBuild]

/-- C1 witness: with the window 8 of `extA`, requesting `length = 9` aborts
with the error naming 8 and builds nothing. -/
theorem length_resolution_spec_witness :
    interact_model extA 0 { length := some 9 } [] =
      [Event.loadEncoder, Event.loadHparams,
       Event.raiseValueError (nCtxOf extA)] ∧
    hasSessionBuild (interact_model extA 0 { length := some 9 } []) = false :=
  (length_resolution_spec extA 0 { length := some 9 } [] (by decide)).2 9
    rfl (by decide)

/-- C2: a `nsamples`-not-divisible-by-`batch_size` configuration fails the
assert with no resource load at all, and any run that reached a resource
load satisfied the divisibility invariant. -/
theorem batch_divisibility_validation (ext : Ext) (entropy : Int)
    (cfg : Config) (lines : List String) :
    (cfg.nsamples % cfg.batch_size.getD 1 ≠ 0 →
      interact_model ext entropy cfg lines = [Event.assertFailure] ∧
      hasResourceLoad (interact_model ext entropy cfg lines) = false) ∧
    (hasResourceLoad (interact_model ext entropy cfg lines) = true →
      cfg.nsamples % cfg.batch_size.getD 1 = 0) := by
  constructor
  · intro hmod
    have h := interact_model_assert ext entropy cfg lines hmod
    exact ⟨h, by rw [h]; simp [hasResourceLoad]⟩
  · intro hload
    by_contra hmod
    rw [interact_model_assert ext entropy cfg lines hmod] at hload
    simp [hasResourceLoad] at hload

/-- C2 witness: `nsamples = 3` with `batch_size = 2` dies at the assert with
nothing loaded. -/
theorem batch_divisibility_validation_witness :
    interact_model extA 0 { nsamples := 3, batch_size := some 2 } [] =
      [Event.assertFailure] ∧
    hasResourceLoad (interact_model extA 0
      { nsamples := 3, batch_size := some 2 } []) = false :=
  (batch_divisibility_validation extA 0
    { nsamples := 3, batch_size := some 2 } []).1 (by decide)

/-- C5: with a fixed seed, two runs that differ only in the ambient OS
entropy produce identical traces on the identical prompt sequence. -/
theorem seeded_runs_identical (ext : Ext) (e1 e2 s : Int) (cfg : Config)
    (lines : List String) (hs : cfg.seed = some s) :
    interact_model ext e1 cfg lines = interact_model ext e2 cfg lines := by
  have h : initRng cfg.seed e1 = initRng cfg.seed e2 := by
    simp [initRng, hs]
  simp only [interact_model, h]

/-- C5 witness: two seeded runs with different entropy agree. -/
theorem seeded_runs_identical_witness :
    interact_model extA 3 { seed := some 7 } ["x"] =
      interact_model extA 4 { seed := some 7 } ["x"] :=
  seeded_runs_identical extA 3 4 7 { seed := some 7 } ["x"] rfl

/-- C3: for a valid configuration a non-empty prompt runs exactly
`nsamples / batch_size` generation rounds, each round prints the
`batch_size` consecutive ordinals following the running counter, and the
displayed ordinals over the whole prompt are `1, …, nsamples` in order. -/
theorem rounds_and_ordinals (ext : Ext) (ns bs : Nat) (rng : Int)
    (line : String) (rest : List String) (_hbs : 0 < bs) (hdvd : bs ∣ ns)
    (hne : line ≠ "") :
    loop ext ns bs rng (line :: rest) =
      Event.promptRead line :: (promptStep ext ns bs rng line).1
        ++ loop ext ns bs (promptStep ext ns bs rng line).2 rest ∧
    genCallCount (promptStep ext ns bs rng line).1 = ns / bs ∧
    sampleOrdinals (promptStep ext ns bs rng line).1 = List.range' 1 ns ∧
    (∀ (rng' : Int) (g : Nat),
      sampleOrdinals (runRound ext bs (ext.encode line) rng' g) =
        List.range' (g + 1) bs) := by
  refine ⟨loop_cons_ne ext ns bs rng line rest hne,
    genCallCount_promptStep ext ns bs rng line, ?_, ?_⟩
  · rw [sampleOrdinals_promptStep]
    congr 1
    exact Nat.div_mul_cancel hdvd
  · intro rng' g
    exact sampleOrdinals_runRound ext bs (ext.encode line) rng' g

/-- C3 witness: `nsamples = 4`, `batch_size = 2` on a concrete prompt. -/
theorem rounds_and_ordinals_witness :
    loop extA 4 2 0 ("ab" :: []) =
      Event.promptRead "ab" :: (promptStep extA 4 2 0 "ab").1
        ++ loop extA 4 2 (promptStep extA 4 2 0 "ab").2 [] ∧
    genCallCount (promptStep extA 4 2 0 "ab").1 = 4 / 2 ∧
    sampleOrdinals (promptStep extA 4 2 0 "ab").1 = List.range' 1 4 ∧
    (∀ (rng' : Int) (g : Nat),
      sampleOrdinals (runRound extA 2 (extA.encode "ab") rng' g) =
        List.range' (g + 1) 2) :=
  rounds_and_ordinals extA 4 2 0 "ab" [] (by decide) (by decide) (by decide)

/-- C4: every generation call of a prompt feeds the identical encoded prompt
to every batch slot, and a returned row of the form prompt-plus-continuation
is displayed with exactly the first `len(encode(prompt))` tokens removed,
i.e. as the decoded continuation alone. -/
theorem batch_replication_and_truncation (ext : Ext) (ns bs : Nat)
    (rng : Int) (line : String) (i : Nat) (cont : List Nat) (hi : i < bs)
    (hrow : (ext.gen rng (List.replicate bs (ext.encode line))).getD i [] =
      ext.encode line ++ cont) :
    (∀ inp, Event.genCall inp ∈ (promptStep ext ns bs rng line).1 →
      inp = List.replicate bs (ext.encode line)) ∧
    (∀ g : Nat,
      Event.printSample (g + i + 1) (ext.decode cont) ∈
        runRound ext bs (ext.encode line) rng g) := by
  constructor
  · intro inp h
    exact genCall_input_promptStep ext ns bs rng line inp h
  · intro g
    simp only [runRound]
    refine List.mem_cons.mpr (Or.inr ?_)
    refine List.mem_map.mpr ⟨i, List.mem_range.mpr hi, ?_⟩
    rw [hrow, List.drop_left]

/-- C4 witness: in `extA` the oracle row extends the prompt by two tokens,
and the displayed sample is exactly their decoding. -/
theorem batch_replication_and_truncation_witness :
    (∀ inp, Event.genCall inp ∈ (promptStep extA 2 2 5 "a").1 →
      inp = List.replicate 2 (extA.encode "a")) ∧
    (∀ g : Nat,
      Event.printSample (g + 1 + 1) (extA.decode [5, 3]) ∈
        runRound extA 2 (extA.encode "a") 5 g) :=
  batch_replication_and_truncation extA 2 2 5 "a" 1 [5, 3] (by decide)
    (by decide)

/-- C6: an empty prompt line prints the notice and re-prompts with the loop
state untouched: it contributes no encode step, no generation call and no
sample ordinal, and the remaining run is as if it had not occurred; a
non-empty line proceeds to the encode step. -/
theorem empty_prompt_reprompts (ext : Ext) (ns bs : Nat) (rng : Int)
    (line : String) (rest : List String) :
    (line = "" →
      loop ext ns bs rng (line :: rest) =
        Event.promptRead "" :: Event.emptyNotice ::
          loop ext ns bs rng rest ∧
      encodeCount (loop ext ns bs rng (line :: rest)) =
        encodeCount (loop ext ns bs rng rest) ∧
      genCallCount (loop ext ns bs rng (line :: rest)) =
        genCallCount (loop ext ns bs rng rest) ∧
      sampleOrdinals (loop ext ns bs rng (line :: rest)) =
        sampleOrdinals (loop ext ns bs rng rest)) ∧
    (line ≠ "" →
      loop ext ns bs rng (line :: rest) =
        Event.promptRead line :: Event.encodeEvent (ext.encode line) ::
          ((runRounds ext bs (ext.encode line) rng 0 (ns / bs)).1 ++
            Event.printSep ::
              loop ext ns bs (promptStep ext ns bs rng line).2 rest)) := by
  constructor
  · intro h
    subst h
    refine ⟨loop_cons_empty ext ns bs rng rest, ?_, ?_, ?_⟩
    · rw [loop_cons_empty]
      simp [encodeCount]
    · rw [loop_cons_empty]
      simp [genCallCount]
    · rw [loop_cons_empty]
      simp [sampleOrdinals]
  · intro h
    rw [loop_cons_ne ext ns bs rng line rest h]
    simp [promptStep]

/-- C6 witness: an empty line before a prompt leaves counters and ordinals
exactly as without it. -/
theorem empty_prompt_reprompts_witness :
    loop extA 1 1 0 ("" :: ["b"]) =
      Event.promptRead "" :: Event.emptyNotice :: loop extA 1 1 0 ["b"] ∧
    encodeCount (loop extA 1 1 0 ("" :: ["b"])) =
      encodeCount (loop extA 1 1 0 ["b"]) ∧
    genCallCount (loop extA 1 1 0 ("" :: ["b"])) =
      genCallCount (loop extA 1 1 0 ["b"]) ∧
    sampleOrdinals (loop extA 1 1 0 ("" :: ["b"])) =
      sampleOrdinals (loop extA 1 1 0 ["b"]) :=
  (empty_prompt_reprompts extA 1 1 0 "" ["b"]).1 rfl

/-- C7: a metadata key overrides the default structure's value, a key absent
from the metadata keeps its default reading, unknown metadata keys become
attributes of the overlaid structure, and a structure without `n_ctx` after
the overlay resolves the context window to 1024. -/
theorem hparams_overlay_spec (ext : Ext) (k : String) (v dflt : Int) :
    ((ext.hparamsJson.map Prod.fst).Nodup → (k, v) ∈ ext.hparamsJson →
      getattrD (overlayHparams ext.defaultHparams ext.hparamsJson) k dflt =
        v) ∧
    (k ∉ ext.hparamsJson.map Prod.fst →
      getattrD (overlayHparams ext.defaultHparams ext.hparamsJson) k dflt =
        getattrD ext.defaultHparams k dflt) ∧
    (k ∈ ext.hparamsJson.map Prod.fst →
      k ∈ (overlayHparams ext.defaultHparams ext.hparamsJson).map
        Prod.fst) ∧
    ("n_ctx" ∉ (overlayHparams ext.defaultHparams ext.hparamsJson).map
        Prod.fst → nCtxOf ext = 1024) := by
  refine ⟨?_, ?_, ?_, ?_⟩
  · intro hnd hmem
    exact getattrD_overlay_mem ext.hparamsJson ext.defaultHparams k v dflt
      hnd hmem
  · intro hk
    exact getattrD_overlay_not_mem ext.hparamsJson ext.defaultHparams k
      dflt hk
  · intro hk
    exact mem_keys_overlay ext.hparamsJson ext.defaultHparams k hk
  · intro hk
    exact getattrD_absent 1024 hk

/-- C7 witness: in `extA`, `n_ctx` is overridden to 8 and the unknown key
`n_layer` becomes an attribute reading 2. -/
theorem hparams_overlay_spec_witness :
    getattrD (overlayHparams extA.defaultHparams extA.hparamsJson)
      "n_layer" 0 = 2 ∧
    "n_layer" ∈ (overlayHparams extA.defaultHparams extA.hparamsJson).map
      Prod.fst :=
  ⟨(hparams_overlay_spec extA "n_layer" 2 0).1 (by decide) (by decide),
    (hparams_overlay_spec extA "n_layer" 2 0).2.2.1 (by decide)⟩

/-- C8: when startup succeeds, both RNG seeding calls appear, carrying the
configured seed, strictly between the placeholder creation and the
sampling-graph construction; nothing after the startup prefix constructs
graph or session resources; and with no seed the initial random state is the
ambient entropy. -/
theorem seeding_before_graph_build (ext : Ext) (entropy : Int)
    (cfg : Config) (lines : List String) (len : Int)
    (hmod : cfg.nsamples % cfg.batch_size.getD 1 = 0)
    (hlen : resolveLength cfg.length (nCtxOf ext) = Except.ok len) :
    (interact_model ext entropy cfg lines).take 7 =
      [Event.loadEncoder, Event.loadHparams,
       Event.createPlaceholder (cfg.batch_size.getD 1),
       Event.seedNumpy cfg.seed, Event.seedTF cfg.seed,
       Event.buildSampler len (cfg.batch_size.getD 1),
       Event.restoreCheckpoint] ∧
    hasSessionBuild ((interact_model ext entropy cfg lines).drop 7) =
      false ∧
    (cfg.seed = none → initRng cfg.seed entropy = entropy) := by
  have h := interact_model_ok ext entropy cfg lines len hmod hlen
  refine ⟨?_, ?_, ?_⟩
  · rw [h]
    rfl
  · rw [h]
    exact hasSessionBuild_loop ext cfg.nsamples (cfg.batch_size.getD 1)
      lines (initRng cfg.seed entropy)
  · intro hn
    simp [initRng, hn]

/-- C8 witness: the default configuration against `extA`. -/
theorem seeding_before_graph_build_witness :
    (interact_model extA 0 {} []).take 7 =
      [Event.loadEncoder, Event.loadHparams, Event.createPlaceholder 1,
       Event.seedNumpy none, Event.seedTF none, Event.buildSampler 4 1,
       Event.restoreCheckpoint] ∧
    hasSessionBuild ((interact_model extA 0 {} []).drop 7) = false ∧
    (Config.seed {} = none → initRng (Config.seed {}) 0 = 0) :=
  seeding_before_graph_build extA 0 {} [] 4 (by decide) rfl

/-- C9 counterexample: with `length = 2000` against the window 8 of `extA`,
the failing length check is reached only after the encoder and the
hyperparameters have been loaded, so a configuration error is not always
detected before a model resource is loaded. -/
theorem config_error_preload_counterexample :
    interact_model extA 0 { length := some 2000 } [] =
      [Event.loadEncoder, Event.loadHparams, Event.raiseValueError 8] ∧
    hasResourceLoad ((interact_model extA 0
      { length := some 2000 } []).take 2) = true := by
  decide

/-- C9 (amended): a ratio violation is detected with no model resource
loaded at all, while an oversized `length` is detected only after the
encoder and the hyperparameters are loaded but before any session resource
(placeholder, sampling graph, checkpoint) is created. -/
theorem config_error_ordering (ext : Ext) (entropy : Int) (cfg : Config)
    (lines : List String) :
    (cfg.nsamples % cfg.batch_size.getD 1 ≠ 0 →
      interact_model ext entropy cfg lines = [Event.assertFailure] ∧
      hasResourceLoad (interact_model ext entropy cfg lines) = false) ∧
    (∀ l : Int, cfg.nsamples % cfg.batch_size.getD 1 = 0 →
      cfg.length = some l → l > nCtxOf ext →
      interact_model ext entropy cfg lines =
        [Event.loadEncoder, Event.loadHparams,
         Event.raiseValueError (nCtxOf ext)] ∧
      hasSessionBuild (interact_model ext entropy cfg lines) = false) := by
  constructor
  · intro hmod
    have h := interact_model_assert ext entropy cfg lines hmod
    exact ⟨h, by rw [h]; simp [hasResourceLoad]⟩
  · intro l hmod hl hgt
    have herr : resolveLength cfg.length (nCtxOf ext) =
        Except.error (nCtxOf ext) := by
      simp [resolveLength, hl, hgt]
    have htr := interact_model_lenerr ext entropy cfg lines _ hmod herr
    refine ⟨htr, ?_⟩
    rw [htr]
    simp [hasSessionBuild]

/-- C9 witness: the oversized-length branch at a concrete configuration. -/
theorem config_error_ordering_witness :
    interact_model extA 0 { length := some 100 } [] =
      [Event.loadEncoder, Event.loadHparams,
       Event.raiseValueError (nCtxOf extA)] ∧
    hasSessionBuild (interact_model extA 0 { length := some 100 } []) =
      false :=
  (config_error_ordering extA 0 { length := some 100 } []).2 100 (by decide)
    rfl (by decide)

/-- C10: with `nsamples = 0` and a positive batch size the assert passes and
startup proceeds to the encoder load, and every non-empty prompt performs
zero generation rounds and prints zero samples, emitting only the closing
separator after its encode step. -/
theorem zero_nsamples_spec (ext : Ext) (entropy : Int) (cfg : Config)
    (lines : List String) (rng : Int) (line : String)
    (hns : cfg.nsamples = 0) (_hbs : 0 < cfg.batch_size.getD 1)
    (_hline : line ≠ "") :
    (interact_model ext entropy cfg lines).take 1 = [Event.loadEncoder] ∧
    (promptStep ext cfg.nsamples (cfg.batch_size.getD 1) rng line).1 =
      [Event.encodeEvent (ext.encode line), Event.printSep] ∧
    genCallCount (promptStep ext cfg.nsamples (cfg.batch_size.getD 1) rng
      line).1 = 0 ∧
    sampleOrdinals (promptStep ext cfg.nsamples (cfg.batch_size.getD 1) rng
      line).1 = [] := by
  have hmod : cfg.nsamples % cfg.batch_size.getD 1 = 0 := by
    rw [hns]
    simp
  refine ⟨?_, ?_, ?_, ?_⟩
  · cases hres : resolveLength cfg.length (nCtxOf ext) with
    | error n =>
      rw [interact_model_lenerr ext entropy cfg lines n hmod hres]
      rfl
    | ok len =>
      rw [interact_model_ok ext entropy cfg lines len hmod hres]
      rfl
  · have h0 : cfg.nsamples / cfg.batch_size.getD 1 = 0 := by
      rw [hns]
      simp
    simp [promptStep, h0, runRounds]
  · rw [genCallCount_promptStep, hns]
    simp
  · rw [sampleOrdinals_promptStep, hns]
    simp

/-- C10 witness: `nsamples = 0`, `batch_size = 1` on a concrete prompt. -/
theorem zero_nsamples_spec_witness :
    (interact_model extA 0 { nsamples := 0 } []).take 1 =
      [Event.loadEncoder] ∧
    (promptStep extA (Config.nsamples { nsamples := 0 })
      ((Config.batch_size { nsamples := 0 }).getD 1) 0 "c").1 =
      [Event.encodeEvent (extA.encode "c"), Event.printSep] ∧
    genCallCount (promptStep extA (Config.nsamples { nsamples := 0 })
      ((Config.batch_size { nsamples := 0 }).getD 1) 0 "c").1 = 0 ∧
    sampleOrdinals (promptStep extA (Config.nsamples { nsamples := 0 })
      ((Config.batch_size { nsamples := 0 }).getD 1) 0 "c").1 = [] :=
  zero_nsamples_spec extA 0 { nsamples := 0 } [] 0 "c" rfl (by decide)
    (by decide)

end GPT2
